import Mathlib

set_option maxHeartbeats 1600000

/-!
Verification of the Game-of-Life core of `src/main.py`: the `State`
bit-array grid (`__init__`, `__getitem__`, `__setitem__`,
`total_alive_neighbours`, `apply_rule_set`), the `default_rules`
transition function, and `World.evolve_next_generation`.

Modelling conventions:
* A Python `bitarray` is a `List Bool`; `bitarray` indexing follows
  Python sequence semantics (a negative index is shifted once by the
  length; an access outside the shifted window raises `IndexError`),
  modelled by `pyIndex`.  Raising an exception is `Option.none`.
* Object identity matters for `apply_rule_set` (its `inplace_state`
  argument may alias `self`, and `evolve_next_generation` passes the
  very grid being read).  Grids therefore live in a `Heap` (a list of
  `State`s) and are referred to by index; `World` holds indices.
* `bitarray(n)` allocates `n` *uninitialized* bits, and
  `bitarray.fromfile(f, n)` *appends* the bits of `n` bytes read from
  `f` (big-endian bit order within a byte, the `bitarray` default),
  raising `EOFError` when fewer than `n` bytes are available.
-/

/-- Python sequence index resolution for a sequence of length `len`:
a negative index is first shifted by `len`, and the access succeeds
iff the shifted index lies in `[0, len)` (otherwise `IndexError`). -/
def pyIndex (len : Nat) (i : Int) : Option Nat :=
  let j : Int := if i < 0 then i + len else i
  if 0 ≤ j ∧ j < (len : Int) then some j.toNat else none

/-- Read of a Python sequence (`bitarray`) at index `i`. -/
def pyIndexGet (l : List Bool) (i : Int) : Option Bool :=
  (pyIndex l.length i).bind fun k => l.get? k

/-- Write of a Python sequence (`bitarray`) at index `i`. -/
def pyIndexSet (l : List Bool) (i : Int) (v : Bool) : Option (List Bool) :=
  (pyIndex l.length i).map fun k => l.set k v

/-- `DEFAULT_WORLD_SIZE = 30` from the source. -/
def DEFAULT_WORLD_SIZE : Nat := 30

/-- `MAX_WORLD_SIZE = 100` from the source.  The constant is declared
but never read by any other line of the source. -/
def MAX_WORLD_SIZE : Nat := 100

/-- The `State` container: `size`, and `_data` (a `bitarray`). -/
structure State where
  size : Nat
  data : List Bool
deriving DecidableEq

/-- `State.__init__(size)` with no `file` argument:
`self._data = bitarray(self.size ** 2)` followed by
`self._data.setall(False)`.  There is no validation of `size`. -/
def State.new (size : Nat) : State :=
  ⟨size, List.replicate (size * size) false⟩

/-- The eight bits of one byte in the default big-endian bit order
of `bitarray` (most significant bit first). -/
def byteBitsBE (b : Nat) : List Bool :=
  [decide (b / 128 % 2 = 1), decide (b / 64 % 2 = 1),
   decide (b / 32 % 2 = 1), decide (b / 16 % 2 = 1),
   decide (b / 8 % 2 = 1), decide (b / 4 % 2 = 1),
   decide (b / 2 % 2 = 1), decide (b % 2 = 1)]

/-- `State.__init__(size, file)` with a non-empty `file` argument:
`self._data = bitarray(self.size ** 2)` allocates `size * size`
*uninitialized* bits (modelled by the arbitrary bit source
`arbitraryBit`), and `self._data.fromfile(f, self.size)` then
*appends* the bits of the first `size` bytes of the file, raising
`EOFError` (here `none`) when the file holds fewer than `size` bytes. -/
def stateFromFile (size : Nat) (arbitraryBit : Nat → Bool) (fileBytes : List Nat) : Option State :=
  if fileBytes.length < size then none
  else some ⟨size, (List.range (size * size)).map arbitraryBit
                     ++ (fileBytes.take size).flatMap byteBitsBE⟩

/-- `State.__getitem__`: `self._data[key[0] * self.size + key[1]]`. -/
def State.getItem (s : State) (key : Int × Int) : Option Bool :=
  pyIndexGet s.data (key.1 * s.size + key.2)

/-- `State.__setitem__`: `self._data[key[0] * self.size + key[1]] = value`. -/
def State.setItem (s : State) (key : Int × Int) (value : Bool) : Option State :=
  (pyIndexSet s.data (key.1 * s.size + key.2) value).map fun d => ⟨s.size, d⟩

/-- The cell value at `key` read through `getItem` (`false` when the
read fails); used only at in-range keys in specifications. -/
def cellVal (s : State) (key : Int × Int) : Bool :=
  (s.getItem key).getD false

/-- One guarded accumulation step of `total_alive_neighbours`:
`if cond: if self[p]: live_neighbours += 1`. -/
def nbAcc (s : State) (c : Prop) [Decidable c] (p : Int × Int) (acc : Nat) : Option Nat :=
  if c then (s.getItem p).map fun b => if b then acc + 1 else acc
  else some acc

/-- `State.total_alive_neighbours(x, y)`: `max_index = self.size - 1`
and the eight guarded neighbour reads, in source order. -/
def State.totalAliveNeighbours (s : State) (x y : Int) : Option Nat :=
  nbAcc s (x > 0 ∧ y > 0) (x - 1, y - 1) 0 >>= fun a =>
  nbAcc s (y > 0) (x, y - 1) a >>= fun a =>
  nbAcc s (x < (s.size : Int) - 1 ∧ y > 0) (x + 1, y - 1) a >>= fun a =>
  nbAcc s (x > 0) (x - 1, y) a >>= fun a =>
  nbAcc s (x < (s.size : Int) - 1) (x + 1, y) a >>= fun a =>
  nbAcc s (x > 0 ∧ y < (s.size : Int) - 1) (x - 1, y + 1) a >>= fun a =>
  nbAcc s (y < (s.size : Int) - 1) (x, y + 1) a >>= fun a =>
  nbAcc s (x < (s.size : Int) - 1 ∧ y < (s.size : Int) - 1) (x + 1, y + 1) a

/-- `default_rules(number_of_neighbours, current_state)` from the
source, with its early returns as nested conditionals. -/
def defaultRules (number_of_neighbours : Int) (current_state : Bool) : Bool :=
  if number_of_neighbours > 3 then false
  else if number_of_neighbours = 3 then true
  else if number_of_neighbours < 2 then false
  else current_state

/-- Specification-side predicate: `p` lies inside the `size × size`
grid (both coordinates in `[0, size)`). -/
def inRangeB (size : Nat) (p : Int × Int) : Bool :=
  decide (0 ≤ p.1 ∧ p.1 < (size : Int) ∧ 0 ≤ p.2 ∧ p.2 < (size : Int))

/-- The eight Moore-neighbourhood coordinates of `(x, y)`, listed in
the order `total_alive_neighbours` visits them. -/
def mooreNbs (x y : Int) : List (Int × Int) :=
  [(x - 1, y - 1), (x, y - 1), (x + 1, y - 1), (x - 1, y),
   (x + 1, y), (x - 1, y + 1), (x, y + 1), (x + 1, y + 1)]

/-- Specification-side neighbour count: the number of Moore
neighbours of `(x, y)` that are in range and alive. -/
def specCount (s : State) (x y : Int) : Nat :=
  (mooreNbs x y).countP fun p => inRangeB s.size p && cellVal s p

/-- Specification-side candidate count: the number of Moore
neighbours of `(x, y)` that are in range (live or dead). -/
def candidateCount (size : Nat) (x y : Int) : Nat :=
  (mooreNbs x y).countP fun p => inRangeB size p

/-- Grids live in a heap and are denoted by their index, so that the
aliasing between `self` and `inplace_state` is representable. -/
abbrev Heap : Type := List State

/-- The body of the double loop of `apply_rule_set`:
`next_state[i, j] = rule_set(self.total_alive_neighbours(i, j), self[i, j])`.
`self` is re-read from the heap on every iteration, so a write through
an aliased `inplace_state` is visible to later neighbour counts. -/
def applyCell (rule : Int → Bool → Bool) (selfId tgt : Nat) (h : Heap) (ij : Nat × Nat) :
    Option Heap := do
  let self ← List.get? h selfId
  let n ← self.totalAliveNeighbours (ij.1 : Int) (ij.2 : Int)
  let v ← self.getItem ((ij.1 : Int), (ij.2 : Int))
  let t ← List.get? h tgt
  let t2 ← t.setItem ((ij.1 : Int), (ij.2 : Int)) (rule (n : Int) v)
  pure (List.set h tgt t2)

/-- `for i in range(size): for j in range(size)` visit order. -/
def cellList (size : Nat) : List (Nat × Nat) :=
  (List.range size).flatMap fun i => (List.range size).map fun j => (i, j)

/-- `State.apply_rule_set(rule_set, inplace_state)`:
`next_state = inplace_state if inplace_state is not None else State(self.size)`
followed by the double loop; returns the heap after the loop together
with the index of `next_state`. -/
def applyRuleSetH (h : Heap) (selfId : Nat) (rule : Int → Bool → Bool)
    (inplace : Option Nat) : Option (Heap × Nat) := do
  let self ← List.get? h selfId
  let start : Heap × Nat :=
    match inplace with
    | some t => (h, t)
    | none => (h ++ [State.new self.size], List.length h)
  let h2 ← (cellList self.size).foldlM (applyCell rule selfId start.2) start.1
  pure (h2, start.2)

/-- The `World` fields that `evolve_next_generation` touches:
`world_size`, and heap indices for `current_state`/`previous_state`
(`none` is Python `None`). -/
structure WorldS where
  world_size : Nat
  current_state : Option Nat
  previous_state : Option Nat
deriving DecidableEq

/-- `World.evolve_next_generation`: when `current_state` is not `None`,
`previous_state = current_state` and then
`current_state = previous_state.apply_rule_set(default_rules, self.current_state)` —
note that the `inplace_state` passed is the very grid being read.
When `current_state` is `None`, a fresh `State(world_size)` is
allocated. -/
def evolveNextGeneration (h : Heap) (w : WorldS) : Option (Heap × WorldS) :=
  match w.current_state with
  | some cid =>
      (applyRuleSetH h cid defaultRules (some cid)).map fun r =>
        (r.1, { w with previous_state := some cid, current_state := some r.2 })
  | none =>
      some (h ++ [State.new w.world_size], { w with current_state := some (List.length h) })

/-- Row-major grid data built from a per-cell function (for concrete
and parametric test configurations). -/
def mkData (size : Nat) (f : Nat → Nat → Bool) : List Bool :=
  (List.range (size * size)).map fun k => f (k / size) (k % size)

/-- A grid of side `size` whose only live cells are the 2×2 block at
`(a, b), (a+1, b), (a, b+1), (a+1, b+1)`. -/
def blockState (size a b : Nat) : State :=
  ⟨size, mkData size fun i j => decide ((i = a ∨ i = a + 1) ∧ (j = b ∨ j = b + 1))⟩

/-- A 5×5 grid whose only live cells are the horizontal blinker
`(1,2), (2,2), (3,2)`. -/
def blinker : State :=
  ⟨5, mkData 5 fun i j => decide (j = 2 ∧ (i = 1 ∨ i = 2 ∨ i = 3))⟩

/-- C4: the default rule returns, in priority order: dead when the
neighbour count exceeds 3; else alive when it equals 3 (for either
current state); else dead when it is below 2; else (count 2) the
current state unchanged. -/
theorem c4_default_rules_clauses (n : Int) (s : Bool) :
    (3 < n → defaultRules n s = false) ∧
    (n = 3 → defaultRules n s = true) ∧
    (n < 2 → defaultRules n s = false) ∧
    (n = 2 → defaultRules n s = s) := by
  refine ⟨fun h => ?_, fun h => ?_, fun h => ?_, fun h => ?_⟩ <;>
    simp only [defaultRules] <;> split_ifs <;> first | rfl | omega

theorem c4_default_rules_clauses_witness :
    defaultRules 4 true = false ∧ defaultRules 3 false = true ∧
    defaultRules 1 true = false ∧ defaultRules 2 true = true :=
  ⟨(c4_default_rules_clauses 4 true).1 (by decide),
   (c4_default_rules_clauses 3 false).2.1 rfl,
   (c4_default_rules_clauses 1 true).2.2.1 (by decide),
   (c4_default_rules_clauses 2 true).2.2.2 rfl⟩


theorem pyIndex_eq_none (len : Nat) (i : Int) :
    pyIndex len i = none ↔ (i < -(len : Int) ∨ (len : Int) ≤ i) := by
  simp only [pyIndex]
  split_ifs with h1 h2 <;> simp <;> omega

theorem pyIndex_nonneg (len : Nat) (i : Int) (h0 : 0 ≤ i) (h1 : i < (len : Int)) :
    pyIndex len i = some i.toNat := by
  simp only [pyIndex]
  rw [if_neg (show ¬i < 0 by omega), if_pos (show 0 ≤ i ∧ i < (len : Int) from ⟨h0, h1⟩)]

theorem pyIndex_some_lt (len : Nat) (i : Int) (k : Nat) (h : pyIndex len i = some k) :
    k < len := by
  simp only [pyIndex] at h
  by_cases hneg : i < 0
  · rw [if_pos hneg] at h
    split_ifs at h with hc
    simp only [Option.some.injEq] at h
    omega
  · rw [if_neg hneg] at h
    split_ifs at h with hc
    simp only [Option.some.injEq] at h
    omega

theorem pyIndexGet_eq_none (l : List Bool) (i : Int) :
    pyIndexGet l i = none ↔ (i < -(l.length : Int) ∨ (l.length : Int) ≤ i) := by
  rw [← pyIndex_eq_none, pyIndexGet]
  cases hp : pyIndex l.length i with
  | none => simp
  | some k =>
      have hk : k < l.length := pyIndex_some_lt _ _ _ hp
      simp only [Option.some_bind]
      rw [List.get?_eq_getElem?, List.getElem?_eq_getElem hk]
      simp

theorem pyIndexSet_eq_none (l : List Bool) (i : Int) (v : Bool) :
    pyIndexSet l i v = none ↔ (i < -(l.length : Int) ∨ (l.length : Int) ≤ i) := by
  rw [← pyIndex_eq_none, pyIndexSet]
  cases hp : pyIndex l.length i <;> simp

theorem idx_lt_of_range (size : Nat) (p : Int × Int)
    (h1 : 0 ≤ p.1) (h2 : p.1 < (size : Int)) (h3 : 0 ≤ p.2) (h4 : p.2 < (size : Int)) :
    0 ≤ p.1 * size + p.2 ∧ p.1 * size + p.2 < (size : Int) * size := by
  have hm : 0 ≤ p.1 * (size : Int) := mul_nonneg h1 (Int.natCast_nonneg _)
  have hu : p.1 * (size : Int) ≤ ((size : Int) - 1) * size :=
    mul_le_mul_of_nonneg_right (by omega) (Int.natCast_nonneg _)
  have he : ((size : Int) - 1) * size = (size : Int) * size - size := by ring
  constructor
  · omega
  · linarith

theorem getItem_in_range (s : State) (p : Int × Int)
    (h1 : 0 ≤ p.1) (h2 : p.1 < (s.size : Int)) (h3 : 0 ≤ p.2) (h4 : p.2 < (s.size : Int))
    (hwf : s.size * s.size ≤ s.data.length) :
    (p.1 * s.size + p.2).toNat < s.data.length ∧
      ∀ hk : (p.1 * s.size + p.2).toNat < s.data.length,
        s.getItem p = some (s.data.get ⟨(p.1 * s.size + p.2).toNat, hk⟩) := by
  obtain ⟨hi0, hi1⟩ := idx_lt_of_range s.size p h1 h2 h3 h4
  have hcast : ((s.size : Int) * s.size) = ((s.size * s.size : Nat) : Int) := by push_cast; ring
  have hlen : (p.1 * s.size + p.2).toNat < s.data.length := by omega
  refine ⟨hlen, fun hk => ?_⟩
  rw [State.getItem, pyIndexGet, pyIndex_nonneg _ _ hi0 (by omega), Option.some_bind,
    List.get?_eq_getElem?, List.getElem?_eq_getElem hk]
  rfl

theorem getItem_eq_cellVal (s : State) (p : Int × Int)
    (h1 : 0 ≤ p.1) (h2 : p.1 < (s.size : Int)) (h3 : 0 ≤ p.2) (h4 : p.2 < (s.size : Int))
    (hwf : s.size * s.size ≤ s.data.length) :
    s.getItem p = some (cellVal s p) := by
  obtain ⟨hk, hg⟩ := getItem_in_range s p h1 h2 h3 h4 hwf
  rw [cellVal, hg hk, Option.getD_some]

theorem setItem_in_range (s : State) (p : Int × Int) (v : Bool)
    (h1 : 0 ≤ p.1) (h2 : p.1 < (s.size : Int)) (h3 : 0 ≤ p.2) (h4 : p.2 < (s.size : Int))
    (hwf : s.size * s.size ≤ s.data.length) :
    s.setItem p v = some ⟨s.size, s.data.set (p.1 * s.size + p.2).toNat v⟩ := by
  obtain ⟨hi0, hi1⟩ := idx_lt_of_range s.size p h1 h2 h3 h4
  rw [State.setItem, pyIndexSet, pyIndex_nonneg _ _ hi0 (by omega)]
  rfl

theorem nbAcc_eq (s : State) (c : Prop) [Decidable c] (p : Int × Int) (acc : Nat)
    (hc : c ↔ inRangeB s.size p = true) (hwf : s.size * s.size ≤ s.data.length) :
    nbAcc s c p acc =
      some (acc + if inRangeB s.size p && cellVal s p then 1 else 0) := by
  by_cases h : c
  · have hR : inRangeB s.size p = true := hc.mp h
    have hR2 := hR
    simp only [inRangeB, decide_eq_true_eq] at hR2
    obtain ⟨h1, h2, h3, h4⟩ := hR2
    rw [nbAcc, if_pos h, getItem_eq_cellVal s p h1 h2 h3 h4 hwf]
    cases hv : cellVal s p <;> simp [hR, hv]
  · have hR : inRangeB s.size p = false := by
      cases hIR : inRangeB s.size p
      · rfl
      · exact absurd (hc.mpr hIR) h
    rw [nbAcc, if_neg h]
    simp [hR]

theorem totalAliveNeighbours_eq_specCount (s : State) (x y : Int)
    (hwf : s.size * s.size ≤ s.data.length)
    (hx0 : 0 ≤ x) (hx1 : x < (s.size : Int)) (hy0 : 0 ≤ y) (hy1 : y < (s.size : Int)) :
    s.totalAliveNeighbours x y = some (specCount s x y) := by
  rw [State.totalAliveNeighbours]
  rw [nbAcc_eq s _ _ _ (by simp only [inRangeB, decide_eq_true_eq]; omega) hwf]
  simp only [Option.bind_eq_bind, Option.some_bind]
  rw [nbAcc_eq s _ _ _ (by simp only [inRangeB, decide_eq_true_eq]; omega) hwf]
  simp only [Option.some_bind]
  rw [nbAcc_eq s _ _ _ (by simp only [inRangeB, decide_eq_true_eq]; omega) hwf]
  simp only [Option.some_bind]
  rw [nbAcc_eq s _ _ _ (by simp only [inRangeB, decide_eq_true_eq]; omega) hwf]
  simp only [Option.some_bind]
  rw [nbAcc_eq s _ _ _ (by simp only [inRangeB, decide_eq_true_eq]; omega) hwf]
  simp only [Option.some_bind]
  rw [nbAcc_eq s _ _ _ (by simp only [inRangeB, decide_eq_true_eq]; omega) hwf]
  simp only [Option.some_bind]
  rw [nbAcc_eq s _ _ _ (by simp only [inRangeB, decide_eq_true_eq]; omega) hwf]
  simp only [Option.some_bind]
  rw [nbAcc_eq s _ _ _ (by simp only [inRangeB, decide_eq_true_eq]; omega) hwf]
  simp only [specCount, mooreNbs, List.countP_cons, List.countP_nil, Option.some.injEq]
  omega

theorem candidateCount_eq (size : Nat) (x y : Int)
    (hx0 : 0 ≤ x) (hx1 : x < (size : Int)) (hy0 : 0 ≤ y) (hy1 : y < (size : Int)) :
    candidateCount size x y =
      ((if 0 < x then 1 else 0) + (if x < (size : Int) - 1 then 1 else 0) + 1) *
        ((if 0 < y then 1 else 0) + (if y < (size : Int) - 1 then 1 else 0) + 1) - 1 := by
  have e1 : inRangeB size (x - 1, y - 1) = decide (0 < x ∧ 0 < y) := by
    rw [inRangeB, decide_eq_decide]
    omega
  have e2 : inRangeB size (x, y - 1) = decide (0 < y) := by
    rw [inRangeB, decide_eq_decide]
    omega
  have e3 : inRangeB size (x + 1, y - 1) = decide (x < (size : Int) - 1 ∧ 0 < y) := by
    rw [inRangeB, decide_eq_decide]
    omega
  have e4 : inRangeB size (x - 1, y) = decide (0 < x) := by
    rw [inRangeB, decide_eq_decide]
    omega
  have e5 : inRangeB size (x + 1, y) = decide (x < (size : Int) - 1) := by
    rw [inRangeB, decide_eq_decide]
    omega
  have e6 : inRangeB size (x - 1, y + 1) = decide (0 < x ∧ y < (size : Int) - 1) := by
    rw [inRangeB, decide_eq_decide]
    omega
  have e7 : inRangeB size (x, y + 1) = decide (y < (size : Int) - 1) := by
    rw [inRangeB, decide_eq_decide]
    omega
  have e8 : inRangeB size (x + 1, y + 1) =
      decide (x < (size : Int) - 1 ∧ y < (size : Int) - 1) := by
    rw [inRangeB, decide_eq_decide]
    omega
  simp only [candidateCount, mooreNbs, List.countP_cons, List.countP_nil,
    e1, e2, e3, e4, e5, e6, e7, e8, decide_eq_true_eq]
  by_cases h1 : 0 < x <;> by_cases h2 : x < (size : Int) - 1 <;>
    by_cases h3 : 0 < y <;> by_cases h4 : y < (size : Int) - 1 <;>
    simp [h1, h2, h3, h4]

/-- C5 (amended): for a well-formed grid and in-range `(x, y)`,
`total_alive_neighbours` returns exactly the number of live cells
among the in-range Moore neighbours (never the cell itself, never an
out-of-range coordinate), the result is at most 8, and the candidate
counts are 8 for an interior cell, 5 for an edge cell, and — for
grids of size at least 2 — 3 for a corner cell.  (On a 1×1 grid the
sole cell satisfies the corner condition yet has 0 candidates.) -/
theorem c5_neighbour_count (s : State) (x y : Int)
    (hwf : s.size * s.size ≤ s.data.length)
    (hx0 : 0 ≤ x) (hx1 : x < (s.size : Int)) (hy0 : 0 ≤ y) (hy1 : y < (s.size : Int)) :
    s.totalAliveNeighbours x y = some (specCount s x y) ∧
    specCount s x y ≤ 8 ∧
    (x, y) ∉ mooreNbs x y ∧
    ((0 < x ∧ x < (s.size : Int) - 1 ∧ 0 < y ∧ y < (s.size : Int) - 1) →
      candidateCount s.size x y = 8) ∧
    ((((x = 0 ∨ x = (s.size : Int) - 1) ∧ 0 < y ∧ y < (s.size : Int) - 1) ∨
      ((y = 0 ∨ y = (s.size : Int) - 1) ∧ 0 < x ∧ x < (s.size : Int) - 1)) →
      candidateCount s.size x y = 5) ∧
    (((x = 0 ∨ x = (s.size : Int) - 1) ∧ (y = 0 ∨ y = (s.size : Int) - 1) ∧ 2 ≤ s.size) →
      candidateCount s.size x y = 3) := by
  refine ⟨totalAliveNeighbours_eq_specCount s x y hwf hx0 hx1 hy0 hy1, ?_, ?_, ?_, ?_, ?_⟩
  · exact le_trans (List.countP_le_length _) (by rw [mooreNbs]; rfl)
  · simp only [mooreNbs, List.mem_cons, List.not_mem_nil, or_false, Prod.mk.injEq]
    push_neg
    refine ⟨?_, ?_, ?_, ?_, ?_, ?_, ?_, ?_⟩ <;> intro h <;> omega
  · intro h
    rw [candidateCount_eq s.size x y hx0 hx1 hy0 hy1,
      if_pos h.1, if_pos h.2.1, if_pos h.2.2.1, if_pos h.2.2.2]
  · intro h
    rcases h with ⟨hx, hy2, hy3⟩ | ⟨hy, hx2, hx3⟩
    · rcases hx with hx | hx
      · rw [candidateCount_eq s.size x y hx0 hx1 hy0 hy1,
          if_neg (by omega), if_pos (by omega), if_pos hy2, if_pos hy3]
      · rw [candidateCount_eq s.size x y hx0 hx1 hy0 hy1,
          if_pos (by omega), if_neg (by omega), if_pos hy2, if_pos hy3]
    · rcases hy with hy | hy
      · rw [candidateCount_eq s.size x y hx0 hx1 hy0 hy1,
          if_pos hx2, if_pos hx3, if_neg (by omega), if_pos (by omega)]
      · rw [candidateCount_eq s.size x y hx0 hx1 hy0 hy1,
          if_pos hx2, if_pos hx3, if_pos (by omega), if_neg (by omega)]
  · intro h
    obtain ⟨hx, hy, hs⟩ := h
    rcases hx with hx | hx <;> rcases hy with hy | hy
    · rw [candidateCount_eq s.size x y hx0 hx1 hy0 hy1,
        if_neg (by omega), if_pos (by omega), if_neg (by omega), if_pos (by omega)]
    · rw [candidateCount_eq s.size x y hx0 hx1 hy0 hy1,
        if_neg (by omega), if_pos (by omega), if_pos (by omega), if_neg (by omega)]
    · rw [candidateCount_eq s.size x y hx0 hx1 hy0 hy1,
        if_pos (by omega), if_neg (by omega), if_neg (by omega), if_pos (by omega)]
    · rw [candidateCount_eq s.size x y hx0 hx1 hy0 hy1,
        if_pos (by omega), if_neg (by omega), if_pos (by omega), if_neg (by omega)]

theorem c5_neighbour_count_witness :
    (State.new 3).totalAliveNeighbours 1 1 = some (specCount (State.new 3) 1 1) ∧
    specCount (State.new 3) 1 1 ≤ 8 ∧
    ((1 : Int), (1 : Int)) ∉ mooreNbs 1 1 ∧
    ((0 < (1 : Int) ∧ (1 : Int) < ((State.new 3).size : Int) - 1 ∧ 0 < (1 : Int) ∧
        (1 : Int) < ((State.new 3).size : Int) - 1) →
      candidateCount (State.new 3).size 1 1 = 8) ∧
    (((((1 : Int) = 0 ∨ (1 : Int) = ((State.new 3).size : Int) - 1) ∧ 0 < (1 : Int) ∧
        (1 : Int) < ((State.new 3).size : Int) - 1) ∨
      ((((1 : Int) = 0 ∨ (1 : Int) = ((State.new 3).size : Int) - 1) ∧ 0 < (1 : Int) ∧
        (1 : Int) < ((State.new 3).size : Int) - 1))) →
      candidateCount (State.new 3).size 1 1 = 5) ∧
    ((((1 : Int) = 0 ∨ (1 : Int) = ((State.new 3).size : Int) - 1) ∧
        ((1 : Int) = 0 ∨ (1 : Int) = ((State.new 3).size : Int) - 1) ∧ 2 ≤ (State.new 3).size) →
      candidateCount (State.new 3).size 1 1 = 3) :=
  c5_neighbour_count (State.new 3) 1 1 (by decide) (by decide) (by decide) (by decide) (by decide)

/-- C5 counterexample to the unqualified corner clause: on the 1×1
grid the sole cell `(0, 0)` satisfies the corner condition
(`x ∈ {0, size-1}` and `y ∈ {0, size-1}`), yet its candidate count is
0, not 3 (and its neighbour count is 0). -/
theorem c5_corner_size_one :
    ((0 : Int) = 0 ∨ (0 : Int) = ((State.new 1).size : Int) - 1) ∧
    ((0 : Int) = 0 ∨ (0 : Int) = ((State.new 1).size : Int) - 1) ∧
    candidateCount (State.new 1).size 0 0 = 0 ∧
    (State.new 1).totalAliveNeighbours 0 0 = some 0 := by
  refine ⟨Or.inl rfl, Or.inl rfl, ?_, ?_⟩ <;> decide

/-- C8 (amended): for a well-formed grid, `get` (and `set`) fails iff
the flattened index `x*size + y` falls outside the Python index window
`[-size*size, size*size)`; inside the window the access succeeds, with
a negative flattened index wrapping Python-style and an in-window
index such as `(0, size)` aliasing another cell — so of the four
probes named by the spec only `get(size, 0)` fails. -/
theorem c8_bounds (s : State) (x y : Int) (v : Bool)
    (hwf : s.size * s.size = s.data.length) :
    (s.getItem (x, y) = none ↔
      (x * s.size + y < -((s.size : Int) * s.size) ∨ ((s.size : Int) * s.size) ≤ x * s.size + y)) ∧
    (s.setItem (x, y) v = none ↔
      (x * s.size + y < -((s.size : Int) * s.size) ∨ ((s.size : Int) * s.size) ≤ x * s.size + y)) := by
  have hcast : ((s.size : Int) * s.size) = ((s.data.length : Nat) : Int) := by
    rw [← hwf]
    push_cast
    ring
  constructor
  · rw [State.getItem, pyIndexGet_eq_none, hcast]
  · rw [State.setItem]
    cases hp : pyIndexSet s.data (x * s.size + y) v with
    | none =>
        rw [pyIndexSet_eq_none] at hp
        simp only [Option.map_none']
        rw [hcast]
        simp [hp]
    | some d =>
        have hp2 : ¬(x * s.size + y < -(s.data.length : Int) ∨
            (s.data.length : Int) ≤ x * s.size + y) := by
          rw [← pyIndexSet_eq_none s.data (x * s.size + y) v]
          simp [hp]
        simp only [Option.map_some']
        rw [hcast]
        simp only [iff_false_intro hp2]
        simp

theorem c8_bounds_witness :
    ((State.new 2).getItem (2, 0) = none ↔
      ((2 : Int) * (State.new 2).size + 0 < -(((State.new 2).size : Int) * (State.new 2).size) ∨
        (((State.new 2).size : Int) * (State.new 2).size) ≤ 2 * (State.new 2).size + 0)) ∧
    ((State.new 2).setItem (2, 0) true = none ↔
      ((2 : Int) * (State.new 2).size + 0 < -(((State.new 2).size : Int) * (State.new 2).size) ∨
        (((State.new 2).size : Int) * (State.new 2).size) ≤ 2 * (State.new 2).size + 0)) :=
  c8_bounds (State.new 2) 2 0 true (by decide)

/-- C8 counterexample: on the well-formed 2×2 grid with cells
`[(0,0) ↦ true, (0,1) ↦ false, (1,0) ↦ false, (1,1) ↦ true]`,
`get(-1, 0)` and `get(0, -1)` succeed by Python negative-index
wrapping, `get(0, 2)` succeeds by aliasing cell `(1, 0)`, and only
`get(2, 0)` fails — the claim of the spec that all four raise
`OutOfBoundsError` is false. -/
theorem c8_no_bounds_check :
    (⟨2, [true, false, false, true]⟩ : State).getItem (-1, 0) = some false ∧
    (⟨2, [true, false, false, true]⟩ : State).getItem (0, -1) = some true ∧
    (⟨2, [true, false, false, true]⟩ : State).getItem (0, 2) = some false ∧
    (⟨2, [true, false, false, true]⟩ : State).getItem (2, 0) = none := by
  decide

/-- C9 (amended): `State(size)` succeeds for every `size` — there is
no `InvalidSizeError` and `MAX_WORLD_SIZE` is never consulted — and
the constructed grid has `size * size` cells, all dead. -/
theorem c9_construction (size : Nat) (x y : Int)
    (hx0 : 0 ≤ x) (hx1 : x < (size : Int)) (hy0 : 0 ≤ y) (hy1 : y < (size : Int)) :
    (State.new size).size = size ∧
    (State.new size).data.length = size * size ∧
    (State.new size).getItem (x, y) = some false := by
  refine ⟨rfl, by simp [State.new], ?_⟩
  have hwf : (State.new size).size * (State.new size).size ≤ (State.new size).data.length := by
    simp [State.new]
  obtain ⟨hk, hg⟩ := getItem_in_range (State.new size) (x, y) hx0 hx1 hy0 hy1 hwf
  rw [hg hk]
  congr 1
  show (List.replicate (size * size) false).get _ = false
  simp

theorem c9_construction_witness :
    (State.new 101).size = 101 ∧
    (State.new 101).data.length = 101 * 101 ∧
    (State.new 101).getItem (100, 100) = some false :=
  c9_construction 101 100 100 (by decide) (by decide) (by decide) (by decide)

/-- C9 counterexample: construction does not fail outside the
claimed bounds — `State(0)` succeeds (with an empty grid) and
`State(101)` succeeds (with `101 * 101` cells) even though
`MAX_WORLD_SIZE = 100`; no `InvalidSizeError` exists in the code. -/
theorem c9_no_size_validation :
    (State.new 0).size = 0 ∧ (State.new 0).data = [] ∧
    (State.new 101).data.length = 101 * 101 ∧ MAX_WORLD_SIZE = 100 := by
  refine ⟨rfl, rfl, ?_, rfl⟩
  show (List.replicate (101 * 101) false).length = 101 * 101
  rw [List.length_replicate]


theorem mkData_length (size : Nat) (f : Nat → Nat → Bool) :
    (mkData size f).length = size * size := by
  unfold mkData
  rw [List.length_map, List.length_range]

theorem getItem_mk (size : Nat) (d : List Bool) (hlen : size * size ≤ d.length)
    (m n : Nat) (h2 : m < size) (h4 : n < size) :
    (State.mk size d).getItem ((m : Int), (n : Int)) = d.get? (m * size + n) := by
  show (pyIndex d.length ((m : Int) * ((size : Nat) : Int) + (n : Int))).bind
      (fun k => d.get? k) = d.get? (m * size + n)
  have e : ((m : Int)) * ((size : Nat) : Int) + (n : Int) = ((m * size + n : Nat) : Int) := by
    push_cast
    ring
  have hb : m * size + n < size * size := by
    calc m * size + n < m * size + size := by omega
    _ = (m + 1) * size := by ring
    _ ≤ size * size := Nat.mul_le_mul_right _ (by omega)
  rw [e, pyIndex_nonneg _ _ (Int.natCast_nonneg _) (by exact_mod_cast (by omega : m * size + n < d.length)),
    Int.toNat_natCast, Option.some_bind]

theorem cellVal_mk (size : Nat) (f : Nat → Nat → Bool) (m n : Nat)
    (h2 : m < size) (h4 : n < size) :
    cellVal ⟨size, mkData size f⟩ ((m : Int), (n : Int)) = f m n := by
  have hlen : size * size ≤ (mkData size f).length := le_of_eq (mkData_length size f).symm
  have hb : m * size + n < (mkData size f).length := by
    rw [mkData_length]
    calc m * size + n < m * size + size := by omega
    _ = (m + 1) * size := by ring
    _ ≤ size * size := Nat.mul_le_mul_right _ (by omega)
  rw [cellVal, getItem_mk size (mkData size f) hlen m n h2 h4,
    List.get?_eq_getElem?, List.getElem?_eq_getElem hb, Option.getD_some]
  have hsz : 0 < size := by omega
  have e : m * size + n = size * m + n := by ring
  simp only [mkData, List.getElem_map, List.getElem_range]
  rw [e, Nat.mul_add_div hsz, Nat.mul_add_mod, Nat.div_eq_of_lt h4, Nat.mod_eq_of_lt h4,
    Nat.add_zero]

theorem blockCond (size a b : Nat) (ha : a + 2 ≤ size) (hb : b + 2 ≤ size) (p : Int × Int) :
    (inRangeB size p && cellVal (blockState size a b) p) =
      decide ((p.1 = (a : Int) ∨ p.1 = (a : Int) + 1) ∧
        (p.2 = (b : Int) ∨ p.2 = (b : Int) + 1)) := by
  cases hIR : inRangeB size p with
  | false =>
      have hIR2 : ¬(0 ≤ p.1 ∧ p.1 < (size : Int) ∧ 0 ≤ p.2 ∧ p.2 < (size : Int)) :=
        of_decide_eq_false hIR
      rw [Bool.false_and]
      symm
      rw [decide_eq_false_iff_not]
      intro hmem
      omega
  | true =>
      have hIR2 : 0 ≤ p.1 ∧ p.1 < (size : Int) ∧ 0 ≤ p.2 ∧ p.2 < (size : Int) :=
        of_decide_eq_true hIR
      obtain ⟨h1, h2, h3, h4⟩ := hIR2
      obtain ⟨px, py⟩ := p
      simp only at h1 h2 h3 h4
      obtain ⟨m, rfl⟩ : ∃ m : Nat, px = (m : Int) := ⟨px.toNat, (Int.toNat_of_nonneg h1).symm⟩
      obtain ⟨n, rfl⟩ : ∃ n : Nat, py = (n : Int) := ⟨py.toNat, (Int.toNat_of_nonneg h3).symm⟩
      rw [Bool.true_and]
      unfold blockState
      rw [cellVal_mk size _ m n (by exact_mod_cast h2) (by exact_mod_cast h4), decide_eq_decide]
      dsimp only
      omega

theorem blockState_size (size a b : Nat) : (blockState size a b).size = size := rfl

theorem block_pointwise (size a b : Nat) (ha : a + 2 ≤ size) (hb : b + 2 ≤ size)
    (i j : Nat) (hi : i < size) (hj : j < size) :
    defaultRules (specCount (blockState size a b) i j)
        (cellVal (blockState size a b) ((i : Int), (j : Int))) =
      cellVal (blockState size a b) ((i : Int), (j : Int)) := by
  have hcv : cellVal (blockState size a b) ((i : Int), (j : Int)) =
      decide ((i = a ∨ i = a + 1) ∧ (j = b ∨ j = b + 1)) := by
    unfold blockState
    rw [cellVal_mk size _ i j hi hj]
  by_cases hself : (i = a ∨ i = a + 1) ∧ (j = b ∨ j = b + 1)
  · have hn : specCount (blockState size a b) i j = 3 := by
      simp only [specCount, mooreNbs, blockState_size, List.countP_cons, List.countP_nil,
        blockCond size a b ha hb, decide_eq_true_eq]
      split_ifs <;> omega
    rw [hn, hcv, decide_eq_true hself]
    decide
  · have hn : specCount (blockState size a b) i j ≤ 2 := by
      simp only [specCount, mooreNbs, blockState_size, List.countP_cons, List.countP_nil,
        blockCond size a b ha hb, decide_eq_true_eq]
      split_ifs <;> omega
    rw [hcv, decide_eq_false hself]
    unfold defaultRules
    rw [if_neg (by omega), if_neg (by omega), ite_self]

theorem set_get_self (l : List Bool) (k : Nat) (hk : k < l.length) :
    l.set k (l.get ⟨k, hk⟩) = l := by
  apply List.ext_getElem
  · simp
  · intro n h1 h2
    rcases eq_or_ne k n with rfl | hne
    · simp
    · rw [List.getElem_set_ne hne]

theorem setItem_cellVal (s : State) (p : Int × Int)
    (h1 : 0 ≤ p.1) (h2 : p.1 < (s.size : Int)) (h3 : 0 ≤ p.2) (h4 : p.2 < (s.size : Int))
    (hwf : s.size * s.size ≤ s.data.length) :
    s.setItem p (cellVal s p) = some s := by
  obtain ⟨hk, hg⟩ := getItem_in_range s p h1 h2 h3 h4 hwf
  have hv : cellVal s p = s.data.get ⟨(p.1 * s.size + p.2).toNat, hk⟩ := by
    rw [cellVal, hg hk, Option.getD_some]
  rw [setItem_in_range s p _ h1 h2 h3 h4 hwf, hv, set_get_self]

theorem foldlM_fix {α β : Type} (f : β → α → Option β) (b : β) (l : List α)
    (hf : ∀ x ∈ l, f b x = some b) : l.foldlM f b = some b := by
  induction l with
  | nil => rfl
  | cons x xs ih =>
      rw [List.foldlM_cons, hf x (List.mem_cons_self x xs)]
      simp only [Option.bind_eq_bind, Option.some_bind]
      exact ih fun y hy => hf y (List.mem_cons_of_mem _ hy)

theorem cellList_mem {size : Nat} {ij : Nat × Nat} (h : ij ∈ cellList size) :
    ij.1 < size ∧ ij.2 < size := by
  simp only [cellList, List.mem_flatMap, List.mem_map, List.mem_range] at h
  obtain ⟨i, hi, j, hj, rfl⟩ := h
  exact ⟨hi, hj⟩

theorem blockState_data (size a b : Nat) :
    (blockState size a b).data =
      mkData size fun i j => decide ((i = a ∨ i = a + 1) ∧ (j = b ∨ j = b + 1)) := rfl

theorem blockState_wf (size a b : Nat) :
    (blockState size a b).size * (blockState size a b).size ≤ (blockState size a b).data.length := by
  rw [blockState_size, blockState_data, mkData_length]

theorem applyCell_block (size a b : Nat) (ha : a + 2 ≤ size) (hb : b + 2 ≤ size)
    (i j : Nat) (hi : i < size) (hj : j < size) :
    applyCell defaultRules 0 0 [blockState size a b] (i, j) =
      some [blockState size a b] := by
  have hwf := blockState_wf size a b
  have hx0 : (0 : Int) ≤ (i : Int) := Int.natCast_nonneg i
  have hx1 : (i : Int) < ((blockState size a b).size : Int) := by
    rw [blockState_size]
    exact_mod_cast hi
  have hy0 : (0 : Int) ≤ (j : Int) := Int.natCast_nonneg j
  have hy1 : (j : Int) < ((blockState size a b).size : Int) := by
    rw [blockState_size]
    exact_mod_cast hj
  unfold applyCell
  rw [show List.get? [blockState size a b] 0 = some (blockState size a b) from rfl]
  simp only [Option.bind_eq_bind, Option.some_bind]
  rw [totalAliveNeighbours_eq_specCount _ _ _ hwf hx0 hx1 hy0 hy1]
  simp only [Option.some_bind]
  rw [getItem_eq_cellVal _ _ hx0 hx1 hy0 hy1 hwf]
  simp only [Option.some_bind]
  rw [block_pointwise size a b ha hb i j hi hj,
    setItem_cellVal _ _ hx0 hx1 hy0 hy1 hwf]
  simp only [Option.some_bind]
  rfl

/-- C6: a 2×2 block of live cells (a "block" still life) on a grid of
size at least 4 is left exactly unchanged by one
`evolve_next_generation` step — every write of the in-place update
rewrites the value the cell already has, so the aliased buffer never
diverges from the pre-step grid. -/
theorem c6_block_still_life (size a b : Nat) (hsize : 4 ≤ size)
    (ha : a + 2 ≤ size) (hb : b + 2 ≤ size) :
    evolveNextGeneration [blockState size a b] ⟨size, some 0, none⟩ =
      some ([blockState size a b], ⟨size, some 0, some 0⟩) := by
  have hcells : ∀ ij ∈ cellList (blockState size a b).size,
      applyCell defaultRules 0 0 [blockState size a b] ij = some [blockState size a b] := by
    intro ij hij
    obtain ⟨hi, hj⟩ := cellList_mem hij
    rw [blockState_size] at hi hj
    obtain ⟨i, j⟩ := ij
    exact applyCell_block size a b ha hb i j hi hj
  have hfold := foldlM_fix _ _ _ hcells
  show (applyRuleSetH [blockState size a b] 0 defaultRules (some 0)).map _ = _
  unfold applyRuleSetH
  rw [show List.get? [blockState size a b] 0 = some (blockState size a b) from rfl]
  simp only [Option.bind_eq_bind, Option.some_bind]
  rw [hfold]
  rfl

theorem c6_block_still_life_witness :
    evolveNextGeneration [blockState 4 1 1] ⟨4, some 0, none⟩ =
      some ([blockState 4 1 1], ⟨4, some 0, some 0⟩) :=
  c6_block_still_life 4 1 1 (by decide) (by decide) (by decide)

theorem applyCell_eq (rule : Int → Bool → Bool) (selfId tgt : Nat) (hp : Heap)
    (sSelf sTgt : State) (i j : Nat)
    (hs : List.get? hp selfId = some sSelf)
    (ht : List.get? hp tgt = some sTgt)
    (hi : i < sSelf.size) (hj : j < sSelf.size)
    (hwfS : sSelf.size * sSelf.size ≤ sSelf.data.length)
    (hTsize : sTgt.size = sSelf.size)
    (hwfT : sTgt.size * sTgt.size ≤ sTgt.data.length) :
    applyCell rule selfId tgt hp (i, j) =
      some (hp.set tgt ⟨sTgt.size, sTgt.data.set
        (((i : Int)) * sTgt.size + (j : Int)).toNat
        (rule ((specCount sSelf i j : Nat) : Int)
          (cellVal sSelf ((i : Int), (j : Int))))⟩) := by
  have hx1 : (i : Int) < (sSelf.size : Int) := by exact_mod_cast hi
  have hy1 : (j : Int) < (sSelf.size : Int) := by exact_mod_cast hj
  unfold applyCell
  rw [hs]
  simp only [Option.bind_eq_bind, Option.some_bind]
  rw [totalAliveNeighbours_eq_specCount _ _ _ hwfS (Int.natCast_nonneg i) hx1
    (Int.natCast_nonneg j) hy1]
  simp only [Option.some_bind]
  rw [getItem_eq_cellVal _ _ (Int.natCast_nonneg i) hx1 (Int.natCast_nonneg j) hy1 hwfS]
  simp only [Option.some_bind]
  rw [ht]
  simp only [Option.some_bind]
  rw [setItem_in_range sTgt ((i : Int), (j : Int)) _ (Int.natCast_nonneg i)
    (by rw [hTsize]; exact hx1) (Int.natCast_nonneg j) (by rw [hTsize]; exact hy1) hwfT]
  simp only [Option.some_bind]
  rfl

theorem foldlM_inv {α β : Type} (P : β → Prop) (f : β → α → Option β) (l : List α)
    (hf : ∀ b x, P b → x ∈ l → ∃ b2, f b x = some b2 ∧ P b2) :
    ∀ b, P b → ∃ b2, l.foldlM f b = some b2 ∧ P b2 := by
  induction l with
  | nil => exact fun b hb => ⟨b, rfl, hb⟩
  | cons x xs ih =>
      intro b hb
      obtain ⟨b1, hb1, hP1⟩ := hf b x hb (List.mem_cons_self x xs)
      obtain ⟨b2, hb2, hP2⟩ := ih (fun c y hc hy => hf c y hc (List.mem_cons_of_mem _ hy)) b1 hP1
      refine ⟨b2, ?_, hP2⟩
      rw [List.foldlM_cons, hb1]
      simp only [Option.bind_eq_bind, Option.some_bind]
      exact hb2

theorem get?_lt_length {l : Heap} {n : Nat} {s : State} (h : List.get? l n = some s) :
    n < l.length :=
  (List.get?_eq_some.mp h).1

/-- C2 (amended): a step on an engine whose `current_state` is a
well-formed grid allocates no new grid (the heap keeps its length)
and reuses a single buffer: after the step `previous_state` and
`current_state` are the *same* object (the identity of the original grid),
whose size and storage length are preserved.  There is no second
scratch buffer and no role swap. -/
theorem c2_single_buffer (h : Heap) (w : WorldS) (cid : Nat) (s0 : State)
    (hcur : w.current_state = some cid)
    (hs : List.get? h cid = some s0)
    (hwf : s0.size * s0.size ≤ s0.data.length) :
    ∃ h2, evolveNextGeneration h w =
        some (h2, { w with current_state := some cid, previous_state := some cid }) ∧
      h2.length = h.length ∧
      ∃ s2, List.get? h2 cid = some s2 ∧ s2.size = s0.size ∧
        s2.data.length = s0.data.length := by
  have hbody : ∀ (hp : Heap) (ij : Nat × Nat),
      (hp.length = h.length ∧ ∃ s2, List.get? hp cid = some s2 ∧ s2.size = s0.size ∧
        s2.data.length = s0.data.length) →
      ij ∈ cellList s0.size →
      ∃ hp2, applyCell defaultRules cid cid hp ij = some hp2 ∧
        (hp2.length = h.length ∧ ∃ s2, List.get? hp2 cid = some s2 ∧ s2.size = s0.size ∧
          s2.data.length = s0.data.length) := by
    intro hp ij hP hij
    obtain ⟨hlen, s2, hg2, hsz2, hdl2⟩ := hP
    obtain ⟨hi, hj⟩ := cellList_mem hij
    rw [← hsz2] at hi hj
    obtain ⟨i, j⟩ := ij
    have hwf2 : s2.size * s2.size ≤ s2.data.length := by
      rw [hsz2, hdl2]
      exact hwf
    have hlt : cid < hp.length := get?_lt_length hg2
    refine ⟨_, applyCell_eq defaultRules cid cid hp s2 s2 i j hg2 hg2 hi hj hwf2 rfl hwf2, ?_⟩
    refine ⟨by rw [List.length_set]; exact hlen,
      ⟨s2.size, s2.data.set (((i : Int)) * s2.size + (j : Int)).toNat
        (defaultRules ((specCount s2 i j : Nat) : Int)
          (cellVal s2 ((i : Int), (j : Int))))⟩, ?_, hsz2, ?_⟩
    · rw [List.get?_eq_getElem?, List.getElem?_set_self hlt]
    · rw [List.length_set]
      exact hdl2
  have hinv := foldlM_inv _ (applyCell defaultRules cid cid) (cellList s0.size) hbody h
    ⟨rfl, s0, hs, rfl, rfl⟩
  obtain ⟨h2, hfold, hP2⟩ := hinv
  refine ⟨h2, ?_, hP2⟩
  obtain ⟨ws, cs, ps⟩ := w
  simp only at hcur
  subst hcur
  show (applyRuleSetH h cid defaultRules (some cid)).map _ = _
  unfold applyRuleSetH
  rw [hs]
  simp only [Option.bind_eq_bind, Option.some_bind]
  rw [hfold]
  rfl

theorem c2_single_buffer_witness :
    ∃ h2, evolveNextGeneration [State.new 2] ⟨2, some 0, none⟩ =
        some (h2, ⟨2, some 0, some 0⟩) ∧
      h2.length = [State.new 2].length ∧
      ∃ s2, List.get? h2 0 = some s2 ∧ s2.size = (State.new 2).size ∧
        s2.data.length = (State.new 2).data.length :=
  c2_single_buffer [State.new 2] ⟨2, some 0, none⟩ 0 (State.new 2) rfl rfl (by decide)

/-- C2 counterexample: after one step the engine does not hold two
distinct buffers with exchanged roles — on a 2×2 world the heap still
contains the single original grid and `previous_state` and
`current_state` are the same index 0. -/
theorem c2_no_role_swap :
    evolveNextGeneration [State.new 2] ⟨2, some 0, none⟩ =
      some ([State.new 2], ⟨2, some 0, some 0⟩) := by
  decide

/-- C10: `apply_rule_set` with `inplace_state = None` allocates a
fresh grid (a new heap index) of the same size as the receiver,
writes only into it, and leaves the receiver grid — every one of its
cells — unchanged. -/
theorem c10_none_allocates_fresh (h : Heap) (selfId : Nat) (rule : Int → Bool → Bool)
    (s0 : State)
    (hs : List.get? h selfId = some s0)
    (hwf : s0.size * s0.size ≤ s0.data.length) :
    ∃ h2, applyRuleSetH h selfId rule none = some (h2, h.length) ∧
      h2.length = h.length + 1 ∧
      List.get? h2 selfId = some s0 ∧
      ∃ t, List.get? h2 h.length = some t ∧ t.size = s0.size ∧
        t.data.length = s0.size * s0.size := by
  have hself_lt : selfId < h.length := get?_lt_length hs
  have hbody : ∀ (hp : Heap) (ij : Nat × Nat),
      (hp.length = h.length + 1 ∧ List.get? hp selfId = some s0 ∧
        ∃ t, List.get? hp h.length = some t ∧ t.size = s0.size ∧
          t.data.length = s0.size * s0.size) →
      ij ∈ cellList s0.size →
      ∃ hp2, applyCell rule selfId h.length hp ij = some hp2 ∧
        (hp2.length = h.length + 1 ∧ List.get? hp2 selfId = some s0 ∧
          ∃ t, List.get? hp2 h.length = some t ∧ t.size = s0.size ∧
            t.data.length = s0.size * s0.size) := by
    intro hp ij hP hij
    obtain ⟨hlen, hgS, t, hgT, htsz, htdl⟩ := hP
    obtain ⟨hi, hj⟩ := cellList_mem hij
    obtain ⟨i, j⟩ := ij
    have hwfT : t.size * t.size ≤ t.data.length := by
      rw [htsz, htdl]
    have htgt_lt : h.length < hp.length := by omega
    refine ⟨_, applyCell_eq rule selfId h.length hp s0 t i j hgS hgT hi hj hwf htsz hwfT, ?_⟩
    refine ⟨by rw [List.length_set]; exact hlen, ?_, ?_⟩
    · rw [List.get?_eq_getElem?, List.getElem?_set_ne (by omega),
        ← List.get?_eq_getElem?]
      exact hgS
    · refine ⟨⟨t.size, t.data.set (((i : Int)) * t.size + (j : Int)).toNat
        (rule ((specCount s0 i j : Nat) : Int) (cellVal s0 ((i : Int), (j : Int))))⟩,
        ?_, htsz, ?_⟩
      · rw [List.get?_eq_getElem?, List.getElem?_set_self htgt_lt]
      · rw [List.length_set]
        exact htdl
  have hstart : (h ++ [State.new s0.size]).length = h.length + 1 ∧
      List.get? (h ++ [State.new s0.size]) selfId = some s0 ∧
      ∃ t, List.get? (h ++ [State.new s0.size]) h.length = some t ∧ t.size = s0.size ∧
        t.data.length = s0.size * s0.size := by
    refine ⟨by rw [List.length_append]; rfl, ?_, State.new s0.size, ?_, rfl, ?_⟩
    · rw [List.get?_append hself_lt]
      exact hs
    · exact List.get?_concat_length h _
    · show (List.replicate (s0.size * s0.size) false).length = s0.size * s0.size
      rw [List.length_replicate]
  obtain ⟨h2, hfold, hP2⟩ := foldlM_inv _ (applyCell rule selfId h.length)
    (cellList s0.size) hbody (h ++ [State.new s0.size]) hstart
  refine ⟨h2, ?_, hP2⟩
  unfold applyRuleSetH
  rw [hs]
  simp only [Option.bind_eq_bind, Option.some_bind]
  rw [hfold]
  rfl

theorem c10_none_allocates_fresh_witness :
    ∃ h2, applyRuleSetH [State.new 1] 0 defaultRules none = some (h2, [State.new 1].length) ∧
      h2.length = [State.new 1].length + 1 ∧
      List.get? h2 0 = some (State.new 1) ∧
      ∃ t, List.get? h2 [State.new 1].length = some t ∧ t.size = (State.new 1).size ∧
        t.data.length = (State.new 1).size * (State.new 1).size :=
  c10_none_allocates_fresh [State.new 1] 0 defaultRules (State.new 1) rfl (by decide)

/-- C1 (code bug, evaluated): one step on the 5×5 blinker world wipes
the whole grid.  Before the step, cell `(2,1)` is dead with exactly 3
live neighbours — `rule(3, False) = True`, so a pre-step-synchronous
update must set it alive — yet after the step it is dead, because the
in-place aliased update had already killed neighbour `(1,2)` before
`(2,1)` was visited. -/
theorem c1_update_not_synchronous :
    evolveNextGeneration [blinker] ⟨5, some 0, none⟩ =
      some ([State.new 5], ⟨5, some 0, some 0⟩) ∧
    blinker.totalAliveNeighbours 2 1 = some 3 ∧
    blinker.getItem (2, 1) = some false ∧
    defaultRules 3 false = true := by
  refine ⟨?_, ?_, ?_, ?_⟩ <;> decide

/-- C3 (code bug, evaluated): one step on the 5×5 blinker does not
produce the vertical blinker — it kills every cell, including the
claimed column cells `(2,1)`, `(2,2)`, `(2,3)`; a second step on the
dead grid cannot restore the row. -/
theorem c3_blinker_dies :
    evolveNextGeneration [blinker] ⟨5, some 0, none⟩ =
      some ([State.new 5], ⟨5, some 0, some 0⟩) ∧
    (State.new 5).getItem (2, 1) = some false ∧
    (State.new 5).getItem (2, 2) = some false ∧
    (State.new 5).getItem (2, 3) = some false := by
  refine ⟨?_, ?_, ?_, ?_⟩ <;> decide

/-- C7 (code bug, evaluated): loading a 2×2 grid from a file of two
all-ones bytes (16 bits ≥ 4 = `size*size`) leaves every visible cell
dead — the bits of the file are appended *after* the `size*size`
uninitialized bits (here all modelled as dead) and are never indexed
by `get` — and a one-byte file (8 bits, still ≥ 4 bits) is rejected
because `fromfile` demands `size` whole bytes. -/
theorem c7_snapshot_bits_ignored :
    (stateFromFile 2 (fun _ => false) [255, 255]).map
        (fun s => [s.getItem (0, 0), s.getItem (0, 1), s.getItem (1, 0), s.getItem (1, 1)]) =
      some [some false, some false, some false, some false] ∧
    stateFromFile 2 (fun _ => false) [255] = none := by
  refine ⟨?_, ?_⟩ <;> decide
